import Mathlib

/-!
# Shallow embedding of `typescript-errors` (src/errors.ts)

A typed, non-throwing error-handling library: an error-code registry maps
codes to message/status definitions; four wrappers (`mayFail`,
`promiseMayFail`, `promiseMapMayFail`, `throwIfError`) normalize failures
into Tagged Error Values (`TSError` instances).

Modelling choices:
* JavaScript runtime values are the inductive `Value`; a `TSError` instance
  is the constructor `Value.tsError code message cause meta statusCode`
  (the constructor in the source always assigns every one of these fields).
* A synchronous thunk's outcome, and a settled promise, are both
  `Except Value Value`: `Except.error e` is "threw / rejected with `e`",
  `Except.ok v` is "returned / fulfilled with `v`".  An `async` function
  that never rejects is a function returning `Value` rather than
  `Except Value Value`.
* JS truthiness is modelled exactly where the source relies on it:
  `if (message)` is false for the empty string, and `!code` in `isError`
  is true for `undefined` and for the empty string.
* `??` is modelled by `Option.getD` (it fires only on null/undefined, so an
  explicit `0` status or an empty-string function result is kept).
* Registry message functions are total functions returning `Option String`
  (`none` models `undefined`/`null`), per their declared type.
* JS objects are association lists where the *last* binding for a key wins,
  matching spread semantics `{ ...meta, errors, results }`.
-/

/-- A JavaScript runtime value, as far as this library inspects one.
`tsError code message cause meta statusCode` is an instance of the
`TSError` class from src/errors.ts. -/
inductive Value : Type where
  | undef : Value
  | null : Value
  | bool : Bool → Value
  | num : Int → Value
  | str : String → Value
  | arr : List Value → Value
  | obj : List (String × Value) → Value
  | tsError : String → String → Option Value → List (String × Value) → Int → Value

/-- `target instanceof TSError`. -/
def Value.isTSError : Value → Bool
  | Value.tsError _ _ _ _ _ => true
  | _ => false

/-- The `code` field of a `TSError` instance. -/
def Value.errorCode? : Value → Option String
  | Value.tsError c _ _ _ _ => some c
  | _ => none

/-- The `message` field of a `TSError` instance. -/
def Value.messageOf? : Value → Option String
  | Value.tsError _ m _ _ _ => some m
  | _ => none

/-- The `cause` field of a `TSError` instance (`none` at the outer level
means "not a TSError"; the inner option is the field itself). -/
def Value.causeOf? : Value → Option (Option Value)
  | Value.tsError _ _ cs _ _ => some cs
  | _ => none

/-- The `meta` field of a `TSError` instance. -/
def Value.metaOf? : Value → Option (List (String × Value))
  | Value.tsError _ _ _ mt _ => some mt
  | _ => none

/-- The `statusCode` field of a `TSError` instance. -/
def Value.statusOf? : Value → Option Int
  | Value.tsError _ _ _ _ st => some st
  | _ => none

/-- Whether a value is an array. -/
def Value.isArr : Value → Bool
  | Value.arr _ => true
  | _ => false

/-- The argument record `TSErrorDefinitionMessageFnArgs` passed to a
registry message function: `{code, message?, meta?, statusCode?, cause?}`. -/
structure MessageFnArgs : Type where
  code : String
  message : Option String
  meta : Option (List (String × Value))
  statusCode : Option Int
  cause : Option Value

/-- A registry entry's `message`: a static string or a message function
`(args) => string | undefined | null`. -/
inductive DefMessage : Type where
  | str : String → DefMessage
  | fn : (MessageFnArgs → Option String) → DefMessage

/-- A registry entry (`TSErrorDefinitionItem`): `{ message, statusCode? }`. -/
structure ErrorDefItem : Type where
  message : DefMessage
  statusCode : Option Int

/-- An error registry (`TSErrorDefinition`): a record from code to
definition, modelled as an association list (JS object keys are unique;
lookup takes the first match). -/
def Registry : Type := List (String × ErrorDefItem)

/-- `Object.keys(errorMap).includes(code)` — the `isErrorCode` guard. -/
def isErrorCode (errorMap : Registry) (code : String) : Bool :=
  errorMap.any (fun kv => kv.1 == code)

/-- `errorMap[code]` — property lookup on the registry object. -/
def lookupDef (errorMap : Registry) (code : String) : Option ErrorDefItem :=
  (errorMap.find? (fun kv => kv.1 == code)).map (fun kv => kv.2)

/-- JS truthiness of an optional string: `undefined` and `""` are falsy. -/
def truthyStr : Option String → Bool
  | some s => !(s == "")
  | none => false

/-- `getErrorMessage(errorMap)(args)` from src/errors.ts:
`if (message) return message;` then for a known code take its definition's
message — invoking it with the whole `args` record when it is a function,
with `?? code` on its result — else fall back to the code itself. -/
def getErrorMessage (errorMap : Registry) (args : MessageFnArgs) : String :=
  if truthyStr args.message then args.message.getD ""
  else if isErrorCode errorMap args.code then
    match lookupDef errorMap args.code with
    | some d =>
      match d.message with
      | DefMessage.fn f => (f args).getD args.code
      | DefMessage.str s => s
    | none => args.code
  else args.code

/-- `getStatusCode(errorMap)(code, statusCode)` from src/errors.ts:
`statusCode ?? errorMap[code]?.statusCode ?? 500`. -/
def getStatusCode (errorMap : Registry) (code : String)
    (statusCode : Option Int) : Int :=
  match statusCode with
  | some n => n
  | none =>
    match (lookupDef errorMap code).bind ErrorDefItem.statusCode with
    | some n => n
    | none => 500

/-- The constructor parameter record `TSErrorParams` (minus `errorMap`). -/
structure TSErrorParams : Type where
  cause : Option Value
  code : String
  message : Option String
  meta : Option (List (String × Value))
  statusCode : Option Int

/-- The `TSError` constructor: resolves `message` via `getErrorMessage`
(note the source passes `{code, message, meta, statusCode}` and omits
`cause` from the args record), defaults `meta` to `{}`, and resolves
`statusCode` via `getStatusCode`. -/
def mkTSError (errorMap : Registry) (p : TSErrorParams) : Value :=
  Value.tsError p.code
    (getErrorMessage errorMap
      { code := p.code, message := p.message, meta := p.meta
        statusCode := p.statusCode, cause := none })
    p.cause
    (p.meta.getD [])
    (getStatusCode errorMap p.code p.statusCode)

/-- `newError(errorMap)(args)`: `new TSError({...args, errorMap})`. -/
def newError (errorMap : Registry) (p : TSErrorParams) : Value :=
  mkTSError errorMap p

/-- `isError(errorMap)(target, code?)`:
`target instanceof TSError && (!code || target.code === code)`.
`!code` is JS-truthy negation: true when `code` is `undefined` *or* the
empty string. (`errorMap` is unused in the source as well.) -/
def isError (errorMap : Registry) (target : Value) (code : Option String) : Bool :=
  target.isTSError &&
    (match code with
     | none => true
     | some c => (c == "") || (target.errorCode? == some c))

/-- `mayFail(errorMap)(target, code, meta)`: call the thunk; both result
branches return `targetResp` unchanged; a thrown `e` becomes
`new TSError({cause: e, code, meta, errorMap})`. -/
def mayFail (errorMap : Registry) (target : Except Value Value)
    (code : String) (meta : List (String × Value)) : Value :=
  match target with
  | Except.ok targetResp =>
    if isError errorMap targetResp none then targetResp else targetResp
  | Except.error e =>
    mkTSError errorMap
      { cause := some e, code := code, message := none
        meta := some meta, statusCode := none }

/-- `promiseMayFail(errorMap)(target, code, meta)`: await the promise; a
fulfilled value is returned unchanged (both branches), a rejection reason
`e` becomes `new TSError({cause: e, code, meta, errorMap})`.  The result
type `Value` (not `Except`) is the model of "the wrapper never rejects". -/
def promiseMayFail (errorMap : Registry) (target : Except Value Value)
    (code : String) (meta : List (String × Value)) : Value :=
  match target with
  | Except.ok targetRes =>
    if isError errorMap targetRes none then targetRes else targetRes
  | Except.error e =>
    mkTSError errorMap
      { cause := some e, code := code, message := none
        meta := some meta, statusCode := none }

/-- The predicate of the `errors` filter in `promiseMapMayFail`:
`item.status === 'rejected' || isError(errorMap)(item.value)`. -/
def settledIsFailed (errorMap : Registry) : Except Value Value → Bool
  | Except.error _ => true
  | Except.ok v => isError errorMap v none

/-- The predicate of the `results` filter: `item.status === 'fulfilled'`. -/
def settledIsFulfilled : Except Value Value → Bool
  | Except.ok _ => true
  | Except.error _ => false

/-- A `PromiseSettledResult` object as `Promise.allSettled` produces it:
`{status: 'fulfilled', value}` or `{status: 'rejected', reason}`. -/
def settledToValue : Except Value Value → Value
  | Except.ok v => Value.obj [("status", Value.str "fulfilled"), ("value", v)]
  | Except.error r => Value.obj [("status", Value.str "rejected"), ("reason", r)]

/-- The cast `(item as PromiseFulfilledResult<T>).value`; on a rejected
entry (unreachable on the `results` list) the property is absent, so the
cast would read `undefined`. -/
def fulfilledValue : Except Value Value → Value
  | Except.ok v => v
  | Except.error _ => Value.undef

/-- The `errors` list computed by `promiseMapMayFail`. -/
def mapErrors (errorMap : Registry) (map : List (Except Value Value)) :
    List (Except Value Value) :=
  map.filter (settledIsFailed errorMap)

/-- The `results` list computed by `promiseMapMayFail`. -/
def mapResults (map : List (Except Value Value)) : List (Except Value Value) :=
  map.filter settledIsFulfilled

/-- `promiseMapMayFail(errorMap)(map, code, meta)`: `Promise.allSettled`
(order-preserving; each entry of `map` is its settlement), filter `errors`
and `results`, and either build one `TSError` whose meta is
`{ ...meta, errors, results }` (last-wins association list) or return the
array of fulfilled values. -/
def promiseMapMayFail (errorMap : Registry) (map : List (Except Value Value))
    (code : String) (meta : List (String × Value)) : Value :=
  let errors := mapErrors errorMap map
  let results := mapResults map
  if errors.length ≠ 0 then
    mkTSError errorMap
      { cause := none, code := code, message := none
        meta := some (meta ++
          [("errors", Value.arr (errors.map settledToValue)),
           ("results", Value.arr (results.map settledToValue))])
        statusCode := none }
  else
    Value.arr (results.map fulfilledValue)

/-- `throwIfError(errorMap)(target, code?)`: await `target` (a rejection
propagates), then `if (isError(errorMap)(res, code)) throw res; return res`.
`Except.error` in the result is "the wrapper threw/rejected". -/
def throwIfError (errorMap : Registry) (target : Except Value Value)
    (code : Option String) : Except Value Value :=
  match target with
  | Except.error e => Except.error e
  | Except.ok res =>
    if isError errorMap res code then Except.error res else Except.ok res

/-- Last-wins lookup in a JS-object association list. -/
def lookupLast (l : List (String × Value)) (k : String) : Option Value :=
  (l.reverse.find? (fun kv => kv.1 == k)).map (fun kv => kv.2)

/-- Read key `k` of the `meta` object of a `TSError` value. -/
def metaLookup (v : Value) (k : String) : Option Value :=
  (Value.metaOf? v).bind (fun l => lookupLast l k)

/-! ## Shared concrete fixtures -/

/-- A small registry with one plain-string definition. -/
def demoReg : Registry := [("E", ⟨DefMessage.str "boom", some 400⟩)]

/-- A registry that also binds the empty-string code. -/
def emptyCodeReg : Registry :=
  [("", ⟨DefMessage.str "root", none⟩), ("A", ⟨DefMessage.str "a", none⟩)]

/-- A registry whose definition carries the empty string as its message. -/
def emptyMsgReg : Registry := [("M", ⟨DefMessage.str "", some 400⟩)]

/-- A concrete Tagged Error Value built over `demoReg`. -/
def demoErr : Value :=
  mkTSError demoReg
    { cause := none, code := "E", message := none, meta := none, statusCode := none }

/-- A concrete Tagged Error Value with code `"A"` over `emptyCodeReg`. -/
def errA : Value :=
  mkTSError emptyCodeReg
    { cause := none, code := "A", message := none, meta := none, statusCode := none }

/-! ## Claim theorems -/

/-- C1: if the thunk throws a value `e` — tagged error or not — then
`mayFail(f, c, m)` with a registry-bound code `c` returns (rather than
throws) a newly constructed Tagged Error Value whose `code` is `c` and
whose `cause` is `e`. -/
theorem mayFail_throw_wraps (errorMap : Registry) (c : String)
    (m : List (String × Value)) (e : Value)
    (hc : isErrorCode errorMap c = true) :
    (mayFail errorMap (Except.error e) c m).isTSError = true ∧
    (mayFail errorMap (Except.error e) c m).errorCode? = some c ∧
    (mayFail errorMap (Except.error e) c m).causeOf? = some (some e) :=
  ⟨rfl, rfl, rfl⟩

/-- Witness for C1 at a thunk throwing a value that is itself a Tagged
Error Value. -/
theorem mayFail_throw_wraps_witness :
    (mayFail demoReg (Except.error demoErr) "E" []).isTSError = true ∧
    (mayFail demoReg (Except.error demoErr) "E" []).errorCode? = some "E" ∧
    (mayFail demoReg (Except.error demoErr) "E" []).causeOf? = some (some demoErr) :=
  mayFail_throw_wraps demoReg "E" [] demoErr (by decide)

/-- C2: if the thunk returns normally with `v`, `mayFail` returns exactly
`v` unchanged — in particular a returned Tagged Error Value bubbles through
with its original fields, never re-wrapped under the outer code. -/
theorem mayFail_ok_identity (errorMap : Registry) (c : String)
    (m : List (String × Value)) (v : Value) :
    mayFail errorMap (Except.ok v) c m = v := by
  simp [mayFail]

/-- C3: `promiseMayFail` never rejects (it is a total function into
`Value`): a rejection reason `e` becomes a new Tagged Error Value with
code `c` and cause `e`, and any fulfilled value — tagged error or not —
is returned unchanged. -/
theorem promiseMayFail_spec (errorMap : Registry) (c : String)
    (m : List (String × Value)) :
    (∀ e : Value,
      (promiseMayFail errorMap (Except.error e) c m).isTSError = true ∧
      (promiseMayFail errorMap (Except.error e) c m).errorCode? = some c ∧
      (promiseMayFail errorMap (Except.error e) c m).causeOf? = some (some e)) ∧
    (∀ v : Value, promiseMayFail errorMap (Except.ok v) c m = v) := by
  refine ⟨fun e => ⟨rfl, rfl, rfl⟩, fun v => ?_⟩
  simp [promiseMayFail]

/-- C10: `promiseMapMayFail` on the empty list of awaitables returns the
empty array, never a Tagged Error Value. -/
theorem promiseMapMayFail_nil (errorMap : Registry) (c : String)
    (m : List (String × Value)) :
    promiseMapMayFail errorMap [] c m = Value.arr [] ∧
    (promiseMapMayFail errorMap [] c m).isTSError = false :=
  ⟨rfl, rfl⟩

/-! ## Accessor lemmas for constructed Tagged Error Values -/

theorem isTSError_mkTSError (errorMap : Registry) (p : TSErrorParams) :
    (mkTSError errorMap p).isTSError = true := rfl

theorem errorCode?_mkTSError (errorMap : Registry) (p : TSErrorParams) :
    (mkTSError errorMap p).errorCode? = some p.code := rfl

theorem metaOf?_mkTSError (errorMap : Registry) (p : TSErrorParams) :
    (mkTSError errorMap p).metaOf? = some (p.meta.getD []) := rfl

theorem statusOf?_mkTSError (errorMap : Registry) (p : TSErrorParams) :
    (mkTSError errorMap p).statusOf? =
      some (getStatusCode errorMap p.code p.statusCode) := rfl

/-- C4 counterexample: one awaitable, none rejecting, but fulfilling to a
Tagged Error Value: the result is a Tagged Error Value, not an array of
length 1 as the claim states. -/
theorem promiseMapMayFail_fulfilled_error_cex :
    List.all [Except.ok demoErr] settledIsFulfilled = true ∧
    (promiseMapMayFail demoReg [Except.ok demoErr] "E" []).isArr = false ∧
    (promiseMapMayFail demoReg [Except.ok demoErr] "E" []).isTSError = true :=
  ⟨rfl, rfl, rfl⟩

/-- C4 (amended): over a list of awaitables none of which reject *and none
of which fulfill to a Tagged Error Value*, `promiseMapMayFail` returns the
array of the fulfilled values, in input order, with the input's length. -/
theorem promiseMapMayFail_all_ok (errorMap : Registry)
    (map : List (Except Value Value)) (c : String) (m : List (String × Value))
    (h : ∀ x ∈ map, settledIsFailed errorMap x = false) :
    promiseMapMayFail errorMap map c m = Value.arr (map.map fulfilledValue) ∧
    (map.map fulfilledValue).length = map.length := by
  have hful : ∀ x ∈ map, settledIsFulfilled x = true := by
    intro x hx
    cases x with
    | ok v => rfl
    | error e => exact absurd (h _ hx) (by simp [settledIsFailed])
  have herr : mapErrors errorMap map = [] := by
    unfold mapErrors
    exact List.filter_eq_nil_iff.mpr (fun a ha => by simp [h a ha])
  have hres : mapResults map = map := by
    unfold mapResults
    exact List.filter_eq_self.mpr hful
  refine ⟨?_, by simp⟩
  simp only [promiseMapMayFail, herr, hres]
  simp

/-- Witness for the amended C4 at two fulfilling awaitables. -/
theorem promiseMapMayFail_all_ok_witness :
    promiseMapMayFail demoReg
        [Except.ok (Value.num 1), Except.ok (Value.num 2)] "E" [] =
      Value.arr
        (List.map fulfilledValue
          [Except.ok (Value.num 1), Except.ok (Value.num 2)]) ∧
    (List.map fulfilledValue
      [Except.ok (Value.num 1), Except.ok (Value.num 2)]).length =
      ([Except.ok (Value.num 1), Except.ok (Value.num 2)] :
        List (Except Value Value)).length :=
  promiseMapMayFail_all_ok demoReg _ "E" [] (by decide)

/-- C5 counterexample: an awaitable fulfilling to a Tagged Error Value is
counted in the failed partition *and* still appears in the
succeeded-outcomes list stored under meta key `"results"` — so the
succeeded list is not "fulfilled and not a Tagged Error Value", and the
two lists are not a partition. -/
theorem promiseMapMayFail_partition_cex :
    settledIsFailed demoReg (Except.ok demoErr) = true ∧
    Value.isTSError demoErr = true ∧
    metaLookup (promiseMapMayFail demoReg [Except.ok demoErr] "E" []) "results" =
      some (Value.arr [settledToValue (Except.ok demoErr)]) :=
  ⟨rfl, rfl, rfl⟩

/-- C5 (amended): `promiseMapMayFail` computes a failed list (rejected or
fulfilled-to-a-tagged-error) and a succeeded list of *all* fulfilled
outcomes (an awaitable fulfilling to a Tagged Error Value appears in both);
when the failed list is non-empty it returns a single new Tagged Error
Value with the given code whose meta is the caller's meta augmented with
both full outcome lists; and whenever no fulfilled value is a Tagged Error
Value (in particular with exactly one rejection among N) the two lists'
lengths sum to N. -/
theorem promiseMapMayFail_failed_spec (errorMap : Registry)
    (map : List (Except Value Value)) (c : String) (m : List (String × Value))
    (h : (mapErrors errorMap map).length ≠ 0) :
    (promiseMapMayFail errorMap map c m).isTSError = true ∧
    (promiseMapMayFail errorMap map c m).errorCode? = some c ∧
    (promiseMapMayFail errorMap map c m).metaOf? =
      some (m ++
        [("errors", Value.arr ((mapErrors errorMap map).map settledToValue)),
         ("results", Value.arr ((mapResults map).map settledToValue))]) ∧
    ((∀ x ∈ map, settledIsFulfilled x = true →
        isError errorMap (fulfilledValue x) none = false) →
      (mapErrors errorMap map).length + (mapResults map).length = map.length) := by
  have hmain :
      promiseMapMayFail errorMap map c m =
        mkTSError errorMap
          { cause := none, code := c, message := none
            meta := some (m ++
              [("errors", Value.arr ((mapErrors errorMap map).map settledToValue)),
               ("results", Value.arr ((mapResults map).map settledToValue))])
            statusCode := none } := by
    simp only [promiseMapMayFail]
    rw [if_pos h]
  refine ⟨?_, ?_, ?_, ?_⟩
  · rw [hmain]; exact isTSError_mkTSError _ _
  · rw [hmain]; exact errorCode?_mkTSError _ _
  · rw [hmain]; exact metaOf?_mkTSError _ _
  · intro hno
    have hcong :
        mapErrors errorMap map = map.filter (fun a => !settledIsFulfilled a) := by
      unfold mapErrors
      apply List.filter_congr
      intro x hx
      cases x with
      | error e => rfl
      | ok v =>
        simpa [settledIsFailed, settledIsFulfilled, fulfilledValue] using
          hno _ hx rfl
    rw [hcong]
    unfold mapResults
    rw [Nat.add_comm]
    exact (List.length_eq_length_filter_add settledIsFulfilled).symm

/-- Witness input for the amended C5: one fulfilled, one rejected. -/
def wmap : List (Except Value Value) :=
  [Except.ok (Value.num 1), Except.error (Value.num 2)]

/-- Witness for the amended C5 at one rejection among two awaitables. -/
theorem promiseMapMayFail_failed_spec_witness :
    (promiseMapMayFail demoReg wmap "E" []).isTSError = true ∧
    (promiseMapMayFail demoReg wmap "E" []).errorCode? = some "E" ∧
    (promiseMapMayFail demoReg wmap "E" []).metaOf? =
      some ([] ++
        [("errors", Value.arr ((mapErrors demoReg wmap).map settledToValue)),
         ("results", Value.arr ((mapResults wmap).map settledToValue))]) ∧
    ((∀ x ∈ wmap, settledIsFulfilled x = true →
        isError demoReg (fulfilledValue x) none = false) →
      (mapErrors demoReg wmap).length + (mapResults wmap).length = wmap.length) :=
  promiseMapMayFail_failed_spec demoReg wmap "E" [] (by decide)

/-! ## Discriminator and resolver lemmas -/

/-- The discriminator accepts a value iff it is a Tagged Error Value and
the filter code is absent, is the empty string, or equals the value's
code. -/
theorem isError_true_iff (errorMap : Registry) (v : Value) (c : Option String) :
    isError errorMap v c = true ↔
      (v.isTSError = true ∧ (c = none ∨ c = some "" ∨ v.errorCode? = c)) := by
  cases c with
  | none => simp [isError]
  | some s =>
    simp only [isError, Bool.and_eq_true, Bool.or_eq_true, beq_iff_eq]
    constructor
    · rintro ⟨h1, h2 | h2⟩
      · exact ⟨h1, Or.inr (Or.inl (congrArg some h2))⟩
      · exact ⟨h1, Or.inr (Or.inr h2)⟩
    · rintro ⟨h1, h2 | h2 | h2⟩
      · simp at h2
      · exact ⟨h1, Or.inl (Option.some.inj h2)⟩
      · exact ⟨h1, Or.inr h2⟩

/-- A successful registry lookup implies the `isErrorCode` guard holds. -/
theorem isErrorCode_of_lookupDef (errorMap : Registry) (code : String)
    (d : ErrorDefItem) (h : lookupDef errorMap code = some d) :
    isErrorCode errorMap code = true := by
  unfold lookupDef at h
  have hsome : (errorMap.find? (fun kv => kv.1 == code)).isSome := by
    rw [Option.isSome_iff_exists]
    rcases Option.map_eq_some'.mp h with ⟨kv, hfind, hkv⟩
    exact ⟨kv, hfind⟩
  rcases List.find?_isSome.mp hsome with ⟨x, hx, hpx⟩
  exact List.any_eq_true.mpr ⟨x, hx, hpx⟩

/-- A failed registry lookup implies the `isErrorCode` guard fails. -/
theorem isErrorCode_false_of_lookupDef_none (errorMap : Registry)
    (code : String) (h : lookupDef errorMap code = none) :
    isErrorCode errorMap code = false := by
  unfold lookupDef at h
  rw [Option.map_eq_none'] at h
  rw [List.find?_eq_none] at h
  rw [← Bool.not_eq_true]
  intro hany
  rcases List.any_eq_true.mp hany with ⟨x, hx, hpx⟩
  exact h x hx hpx

/-- C6 counterexample: with the empty string bound as a registry code and
given as the filter, `throwIfError` raises a Tagged Error Value whose code
is `"A"`, not `""` — the value does not match the filter per the claim's
"its code equals c", yet it is raised. -/
theorem throwIfError_empty_filter_cex :
    throwIfError emptyCodeReg (Except.ok errA) (some "") = Except.error errA ∧
    Value.errorCode? errA = some "A" ∧
    ¬ (Value.errorCode? errA = some "") :=
  ⟨rfl, rfl, by decide⟩

/-- C6 (amended): on a fulfilled awaitable `throwIfError` either raises the
resolved value or returns it unchanged, and it raises iff the value is a
Tagged Error Value and the filter code is absent, is the empty string
(which matches every Tagged Error Value), or equals the value's code. -/
theorem throwIfError_fulfilled_iff (errorMap : Registry) (v : Value)
    (c : Option String) :
    (throwIfError errorMap (Except.ok v) c = Except.error v ∨
     throwIfError errorMap (Except.ok v) c = Except.ok v) ∧
    (throwIfError errorMap (Except.ok v) c = Except.error v ↔
      (v.isTSError = true ∧ (c = none ∨ c = some "" ∨ v.errorCode? = c))) := by
  have hred : throwIfError errorMap (Except.ok v) c =
      if isError errorMap v c then Except.error v else Except.ok v := rfl
  rw [hred, ← isError_true_iff errorMap v c]
  by_cases h : isError errorMap v c = true
  · rw [if_pos h]
    exact ⟨Or.inl rfl, by simp [h]⟩
  · rw [if_neg h]
    refine ⟨Or.inr rfl, ?_, fun ht => absurd ht h⟩
    intro he
    simp at he

/-- C7 counterexample: an explicit message that is the empty string does
not win — it is JS-falsy, so resolution falls through to the registry's
message. -/
theorem getErrorMessage_empty_override_cex :
    getErrorMessage demoReg
      { code := "E", message := some "", meta := none
        statusCode := none, cause := none } = "boom" ∧
    ¬ ("boom" = "") :=
  ⟨rfl, by decide⟩

/-- C7 (amended): message resolution precedence — a *non-empty* explicit
message wins outright (an empty explicit message is falsy and ignored);
else a known code's message function is invoked with the whole args record
and its returned string used, falling back to the code when it yields no
value; else a known code's plain string message is used; else the unknown
code itself is the message.  Resolution is a total function. -/
theorem getErrorMessage_precedence (errorMap : Registry) (args : MessageFnArgs) :
    (∀ s, args.message = some s → ¬ (s = "") →
      getErrorMessage errorMap args = s) ∧
    (truthyStr args.message = false →
      ∀ d, lookupDef errorMap args.code = some d →
        (∀ f, d.message = DefMessage.fn f →
          getErrorMessage errorMap args = (f args).getD args.code) ∧
        (∀ s, d.message = DefMessage.str s →
          getErrorMessage errorMap args = s)) ∧
    (truthyStr args.message = false → lookupDef errorMap args.code = none →
      getErrorMessage errorMap args = args.code) := by
  refine ⟨?_, ?_, ?_⟩
  · intro s hs hne
    unfold getErrorMessage
    rw [if_pos (by rw [hs]; simp [truthyStr, hne])]
    rw [hs]
    rfl
  · intro hm d hd
    have hcode := isErrorCode_of_lookupDef errorMap args.code d hd
    constructor
    · intro f hf
      simp [getErrorMessage, hm, hcode, hd, hf]
    · intro s hs
      simp [getErrorMessage, hm, hcode, hd, hs]
  · intro hm hn
    have hcode := isErrorCode_false_of_lookupDef_none errorMap args.code hn
    simp [getErrorMessage, hm, hcode]

/-- Witness for the amended C7: a non-empty explicit message wins. -/
theorem getErrorMessage_precedence_witness :
    getErrorMessage demoReg
      { code := "E", message := some "override", meta := none
        statusCode := none, cause := none } = "override" :=
  (getErrorMessage_precedence demoReg
    { code := "E", message := some "override", meta := none
      statusCode := none, cause := none }).1 "override" rfl (by decide)

/-- C8: status resolution precedence — an explicit statusCode wins; else
the registry definition's statusCode; else 500; in particular a Tagged
Error Value constructed with no statusCode supplied anywhere resolves to
statusCode 500.  (`getStatusCode` takes no message argument at all, so
status resolution is independent of message resolution.) -/
theorem getStatusCode_precedence (errorMap : Registry) (code : String) :
    (∀ n : Int, getStatusCode errorMap code (some n) = n) ∧
    (∀ d, ∀ n : Int, lookupDef errorMap code = some d → d.statusCode = some n →
      getStatusCode errorMap code none = n) ∧
    ((lookupDef errorMap code).bind ErrorDefItem.statusCode = none →
      getStatusCode errorMap code none = 500) ∧
    (∀ p : TSErrorParams, p.code = code → p.statusCode = none →
      (lookupDef errorMap code).bind ErrorDefItem.statusCode = none →
      (mkTSError errorMap p).statusOf? = some 500) := by
  refine ⟨fun n => rfl, ?_, ?_, ?_⟩
  · intro d n hd hn
    simp [getStatusCode, hd, hn]
  · intro hb
    simp [getStatusCode, hb]
  · intro p hpc hps hb
    rw [statusOf?_mkTSError, hpc, hps]
    simp [getStatusCode, hb]

/-- Witness for C8: an explicit status wins, and a code bound with no
statusCode and none supplied at the call site resolves to 500. -/
theorem getStatusCode_precedence_witness :
    getStatusCode demoReg "E" (some 418) = 418 ∧
    (mkTSError emptyCodeReg
      { cause := none, code := "A", message := none, meta := none
        statusCode := none }).statusOf? = some 500 :=
  ⟨(getStatusCode_precedence demoReg "E").1 418,
   (getStatusCode_precedence emptyCodeReg "A").2.2.2
     { cause := none, code := "A", message := none, meta := none
       statusCode := none } rfl rfl (by decide)⟩

/-- C9 counterexample: a registry definition whose message is the empty
string yields a Tagged Error Value whose message is the empty string — the
message field is not a *non-empty* string. -/
theorem tsError_empty_message_cex :
    (newError emptyMsgReg
      { cause := none, code := "M", message := none, meta := none
        statusCode := none }).messageOf? = some "" :=
  rfl

/-- C9 (amended): however constructed — directly, via `newError`, or by a
wrapper on failure — a Tagged Error Value's statusCode is always a concrete
integer (never unset) and its message is always a resolved string (never
the raw message-function), though that string may be empty when the
registry's message resolves to the empty string. -/
theorem tsError_fields_resolved (errorMap : Registry) (p : TSErrorParams)
    (e : Value) (c : String) (m : List (String × Value))
    (map : List (Except Value Value))
    (h : (mapErrors errorMap map).length ≠ 0) :
    (∃ n : Int, (mkTSError errorMap p).statusOf? = some n) ∧
    (∃ s : String, (mkTSError errorMap p).messageOf? = some s) ∧
    (∃ n : Int, (newError errorMap p).statusOf? = some n) ∧
    (∃ n : Int, (mayFail errorMap (Except.error e) c m).statusOf? = some n) ∧
    (∃ n : Int, (promiseMayFail errorMap (Except.error e) c m).statusOf? = some n) ∧
    (∃ n : Int, (promiseMapMayFail errorMap map c m).statusOf? = some n) ∧
    (∃ s : String, (promiseMapMayFail errorMap map c m).messageOf? = some s) := by
  have hmm :
      (promiseMapMayFail errorMap map c m).isTSError = true := by
    simp only [promiseMapMayFail]
    rw [if_pos h]
    rfl
  refine ⟨⟨_, rfl⟩, ⟨_, rfl⟩, ⟨_, rfl⟩, ⟨_, rfl⟩, ⟨_, rfl⟩, ?_, ?_⟩
  · cases hv : promiseMapMayFail errorMap map c m with
    | tsError a b cs mt st => exact ⟨st, rfl⟩
    | undef => rw [hv] at hmm; simp [Value.isTSError] at hmm
    | null => rw [hv] at hmm; simp [Value.isTSError] at hmm
    | bool x => rw [hv] at hmm; simp [Value.isTSError] at hmm
    | num x => rw [hv] at hmm; simp [Value.isTSError] at hmm
    | str x => rw [hv] at hmm; simp [Value.isTSError] at hmm
    | arr x => rw [hv] at hmm; simp [Value.isTSError] at hmm
    | obj x => rw [hv] at hmm; simp [Value.isTSError] at hmm
  · cases hv : promiseMapMayFail errorMap map c m with
    | tsError a b cs mt st => exact ⟨b, rfl⟩
    | undef => rw [hv] at hmm; simp [Value.isTSError] at hmm
    | null => rw [hv] at hmm; simp [Value.isTSError] at hmm
    | bool x => rw [hv] at hmm; simp [Value.isTSError] at hmm
    | num x => rw [hv] at hmm; simp [Value.isTSError] at hmm
    | str x => rw [hv] at hmm; simp [Value.isTSError] at hmm
    | arr x => rw [hv] at hmm; simp [Value.isTSError] at hmm
    | obj x => rw [hv] at hmm; simp [Value.isTSError] at hmm

/-- Witness parameter record for C9. -/
def wparams : TSErrorParams :=
  { cause := none, code := "E", message := none, meta := none
    statusCode := none }

/-- Witness for the amended C9 at concrete inputs. -/
theorem tsError_fields_resolved_witness :
    (∃ n : Int, (mkTSError demoReg wparams).statusOf? = some n) ∧
    (∃ s : String, (mkTSError demoReg wparams).messageOf? = some s) ∧
    (∃ n : Int, (newError demoReg wparams).statusOf? = some n) ∧
    (∃ n : Int, (mayFail demoReg (Except.error (Value.num 0)) "E" []).statusOf? = some n) ∧
    (∃ n : Int, (promiseMayFail demoReg (Except.error (Value.num 0)) "E" []).statusOf? = some n) ∧
    (∃ n : Int, (promiseMapMayFail demoReg wmap "E" []).statusOf? = some n) ∧
    (∃ s : String, (promiseMapMayFail demoReg wmap "E" []).messageOf? = some s) :=
  tsError_fields_resolved demoReg wparams (Value.num 0) "E" [] wmap (by decide)
